import Mathlib

/-!
Verification model of `src/main.c` (macos-network-metrics).

The C program polls per-interface network statistics via `sysctl`, sums them
across interfaces into a `NetworkMetrics` value, and in an infinite loop
reports totals, wrapping deltas against the previous sample, and overflow
warnings when a byte counter decreased.

Embedding choices:
* `uint64_t` values are `Nat` kept below `u64Mod = 2 ^ 64`; every arithmetic
  operation the C performs on `uint64_t` is embedded with an explicit
  `% u64Mod` (wrapping addition / subtraction).
* The raw `sysctl` buffer is modelled abstractly: `Buffer` gives the byte
  length and, for every byte offset, the `if_msghdr` struct obtained by
  reinterpreting the bytes at that offset — exactly the information the C
  loop extracts with its casts.  The loop itself only ever reads headers at
  the cursor offsets it visits.
* The record-scanning `for` loop of `GetNetworkMetrics` (main.c lines
  62-107) is embedded with explicit fuel, because the C loop advances the
  cursor only by the untrusted `ifm_msglen` field and therefore has no
  a-priori termination guarantee; `none` models non-termination.
* The per-interface `sysctl` of the `useIfmibData` branch is an oracle
  `ifmib : Nat → Option IfData`; `none` models the `sysctl < 0` failure
  path, which the C answers with `exit(1)`.
* Besides the aggregated metrics, the scan returns the sequence of records
  it visited (classified the way line 65 classifies them) and the sequence
  of interface indices it passed to the secondary `sysctl`; these observe
  what the loop did without changing it.
-/

namespace MacosNetworkMetrics

/-- `2 ^ 64`, the modulus of `uint64_t` arithmetic. -/
def u64Mod : Nat := 18446744073709551616

/-- `RTM_IFINFO2` from `net/route.h` (`0x12`). -/
def RTM_IFINFO2 : Nat := 0x12

/-- The four traffic counters of `struct if_data64` / `ifmd_data` that the C
program reads (`ifi_ipackets`, `ifi_opackets`, `ifi_ibytes`, `ifi_obytes`). -/
structure IfData where
  ifi_ipackets : Nat
  ifi_opackets : Nat
  ifi_ibytes : Nat
  ifi_obytes : Nat
  deriving DecidableEq

/-- The part of an `if_msghdr` / `if_msghdr2` record that `GetNetworkMetrics`
reads: declared record length, type tag, interface index, and the embedded
`ifm_data` counters (meaningful when the type tag is `RTM_IFINFO2`). -/
structure IfMsgHdr where
  ifm_msglen : Nat
  ifm_type : Nat
  ifm_index : Nat
  ifm_data : IfData
  deriving DecidableEq

instance : Inhabited IfData := ⟨⟨0, 0, 0, 0⟩⟩

instance : Inhabited IfMsgHdr := ⟨⟨0, 0, 0, default⟩⟩

/-- The raw buffer returned by the primary `sysctl`: its byte length and the
header struct obtained by reinterpreting the bytes at each offset. -/
structure Buffer where
  length : Nat
  headerAt : Nat → IfMsgHdr

/-- `struct NetworkMetrics` of main.c. -/
structure NetworkMetrics where
  totalInputBytes : Nat
  totalOutputBytes : Nat
  totalInputPackets : Nat
  totalOutputPackets : Nat
  deriving DecidableEq

/-- `(struct NetworkMetrics){}`: all four accumulators start at zero. -/
def zeroMetrics : NetworkMetrics := ⟨0, 0, 0, 0⟩

/-- The four `+=` statements of main.c lines 93-96 / 99-102: `uint64_t`
wrapping addition of one record's counters into the accumulators. -/
def addData (m : NetworkMetrics) (d : IfData) : NetworkMetrics :=
  { totalInputBytes := (m.totalInputBytes + d.ifi_ibytes) % u64Mod
    totalOutputBytes := (m.totalOutputBytes + d.ifi_obytes) % u64Mod
    totalInputPackets := (m.totalInputPackets + d.ifi_ipackets) % u64Mod
    totalOutputPackets := (m.totalOutputPackets + d.ifi_opackets) % u64Mod }

/-- A record as classified by line 65 of main.c: `GenericInfo` when
`ifm_type == RTM_IFINFO2` (carrying the interface index and the embedded
counters), `Other` otherwise. -/
inductive InterfaceRecord where
  | GenericInfo (index : Nat) (data : IfData)
  | Other
  deriving DecidableEq

/-- Outcome of one aggregation pass: either the aggregated metrics or the
`exit(1)` taken when a `sysctl` fails. -/
inductive ScanResult where
  | success (metrics : NetworkMetrics)
  | exitFailure
  deriving DecidableEq

/-- What one run of the scanning loop did: its outcome, the records it
visited in buffer order, and the interface indices it handed to the
secondary per-interface `sysctl`, in order. -/
structure ScanOut where
  result : ScanResult
  records : List InterfaceRecord
  queries : List Nat
  deriving DecidableEq

/-- The record-scanning loop of `GetNetworkMetrics` (main.c lines 62-107),
starting at cursor `next` with accumulator `metrics`.  Each iteration
reinterprets the bytes at the cursor as an `if_msghdr`, processes the record
(for `RTM_IFINFO2` records: querying `ifmib` when `useIfmibData`, otherwise
using the embedded `ifm_data`), then advances the cursor by `ifm_msglen`.
The loop stops when the cursor is no longer strictly below the buffer
length.  `none` means the fuel ran out, i.e. the C loop would still be
running after that many iterations. -/
def scanFrom (buf : Buffer) (ifmib : Nat → Option IfData) (useIfmibData : Bool) :
    Nat → Nat → NetworkMetrics → Option ScanOut
  | 0, _, _ => none
  | fuel + 1, next, metrics =>
    if next < buf.length then
      let message := buf.headerAt next
      if message.ifm_type = RTM_IFINFO2 then
        if useIfmibData then
          match ifmib message.ifm_index with
          | none => some ⟨.exitFailure, [.GenericInfo message.ifm_index message.ifm_data],
              [message.ifm_index]⟩
          | some mibdata =>
            (scanFrom buf ifmib useIfmibData fuel (next + message.ifm_msglen)
                (addData metrics mibdata)).map
              fun o => ⟨o.result, .GenericInfo message.ifm_index message.ifm_data :: o.records,
                message.ifm_index :: o.queries⟩
        else
          (scanFrom buf ifmib useIfmibData fuel (next + message.ifm_msglen)
              (addData metrics message.ifm_data)).map
            fun o => ⟨o.result, .GenericInfo message.ifm_index message.ifm_data :: o.records,
              o.queries⟩
      else
        (scanFrom buf ifmib useIfmibData fuel (next + message.ifm_msglen) metrics).map
          fun o => ⟨o.result, .Other :: o.records, o.queries⟩
    else
      some ⟨.success metrics, [], []⟩

/-- `GetNetworkMetrics` (main.c lines 39-110).  The primary `sysctl` pair is
an oracle `fetch`: `none` is the `sysctl < 0` failure path (lines 50-59,
`exit(1)`), `some buf` a successful fetch of the raw buffer.  On success the
scan starts at the buffer base with zeroed accumulators. -/
def GetNetworkMetrics (fetch : Option Buffer) (ifmib : Nat → Option IfData)
    (useIfmibData : Bool) (fuel : Nat) : Option ScanOut :=
  match fetch with
  | none => some ⟨.exitFailure, [], []⟩
  | some buffer => scanFrom buffer ifmib useIfmibData fuel 0 zeroMetrics

/-- `uint64_t` subtraction `a - b` as the C performs it: wrapping modulo
`2 ^ 64` (for `b < 2 ^ 64` this is `(a + 2 ^ 64 - b) % 2 ^ 64`). -/
def wrapSub (a b : Nat) : Nat := (a + (u64Mod - b % u64Mod)) % u64Mod

/-- Everything one loop iteration of `main` prints (lines 120-144): the four
totals, the four wrapping deltas, and for each byte direction the optional
overflow warning carrying the before value, the after value and the printed
difference `last - current` (a `uint64_t` subtraction). -/
structure Report where
  inputPacketsTotal : Nat
  inputPacketsDelta : Nat
  outputPacketsTotal : Nat
  outputPacketsDelta : Nat
  inputBytesTotal : Nat
  inputBytesDelta : Nat
  outputBytesTotal : Nat
  outputBytesDelta : Nat
  inputOverflow : Option (Nat × Nat × Nat)
  outputOverflow : Option (Nat × Nat × Nat)
  deriving DecidableEq

/-- The report computed by one iteration of the `while (1)` loop of `main`
(lines 120-144) from the previous and current samples.  Deltas are the
`uint64_t` subtractions of lines 121-129; the overflow warnings are emitted
exactly under the `<` comparisons of lines 134 and 139 and carry before,
after, and the `uint64_t` difference `last - current` of lines 136/141. -/
def iterationReport (lastMetrics currentMetrics : NetworkMetrics) : Report :=
  { inputPacketsTotal := currentMetrics.totalInputPackets
    inputPacketsDelta := wrapSub currentMetrics.totalInputPackets lastMetrics.totalInputPackets
    outputPacketsTotal := currentMetrics.totalOutputPackets
    outputPacketsDelta := wrapSub currentMetrics.totalOutputPackets lastMetrics.totalOutputPackets
    inputBytesTotal := currentMetrics.totalInputBytes
    inputBytesDelta := wrapSub currentMetrics.totalInputBytes lastMetrics.totalInputBytes
    outputBytesTotal := currentMetrics.totalOutputBytes
    outputBytesDelta := wrapSub currentMetrics.totalOutputBytes lastMetrics.totalOutputBytes
    inputOverflow :=
      if currentMetrics.totalInputBytes < lastMetrics.totalInputBytes then
        some (lastMetrics.totalInputBytes, currentMetrics.totalInputBytes,
          wrapSub lastMetrics.totalInputBytes currentMetrics.totalInputBytes)
      else none
    outputOverflow :=
      if currentMetrics.totalOutputBytes < lastMetrics.totalOutputBytes then
        some (lastMetrics.totalOutputBytes, currentMetrics.totalOutputBytes,
          wrapSub lastMetrics.totalOutputBytes currentMetrics.totalOutputBytes)
      else none }

/-- Outcome of one iteration of the `while (1)` loop of `main`: either a
report together with the next value of `lastMetrics` (line 146), or process
termination with the given exit status. -/
inductive StepResult where
  | report (r : Report) (nextLast : NetworkMetrics)
  | exited (status : Nat)
  deriving DecidableEq

/-- One iteration of the `while (1)` loop of `main` (lines 116-147): acquire
a fresh sample via `GetNetworkMetrics`; if any `sysctl` in the pass failed
the process exits with status 1 (no report, `lastMetrics` not updated);
otherwise the iteration produces the report and replaces `lastMetrics` with
the current sample.  `none` again models a non-terminating scan. -/
def loopStep (fetch : Option Buffer) (ifmib : Nat → Option IfData) (useIfmibData : Bool)
    (fuel : Nat) (lastMetrics : NetworkMetrics) : Option StepResult :=
  match GetNetworkMetrics fetch ifmib useIfmibData fuel with
  | none => none
  | some o =>
    match o.result with
    | .exitFailure => some (.exited 1)
    | .success currentMetrics =>
      some (.report (iterationReport lastMetrics currentMetrics) currentMetrics)

/-! ### Buffers built as concatenations of records

The OS hands `GetNetworkMetrics` a buffer that is a concatenation of
variable-length records.  `mkBuffer` builds such a buffer from a list of
records: its length is the sum of the declared lengths, and reinterpreting
the bytes at an offset inside the region of record `r` yields `r` (the scan
only ever reads offsets that are record starts when every declared length
is positive). -/

/-- Classification performed by line 65 of main.c. -/
def classify (r : IfMsgHdr) : InterfaceRecord :=
  if r.ifm_type = RTM_IFINFO2 then .GenericInfo r.ifm_index r.ifm_data else .Other

/-- Total byte length of a concatenation of records. -/
def recordsLength (rs : List IfMsgHdr) : Nat := (rs.map IfMsgHdr.ifm_msglen).sum

/-- Header obtained at a byte offset of a concatenation of records. -/
def headerAtList : List IfMsgHdr → Nat → IfMsgHdr
  | [], _ => default
  | r :: rs, off => if off < r.ifm_msglen then r else headerAtList rs (off - r.ifm_msglen)

/-- The buffer laid out as the concatenation of the given records. -/
def mkBuffer (rs : List IfMsgHdr) : Buffer :=
  ⟨recordsLength rs, headerAtList rs⟩

/-- The embedded `ifm_data` counters of the `RTM_IFINFO2` records, in order. -/
def genericDatas (rs : List IfMsgHdr) : List IfData :=
  (rs.filter fun r => decide (r.ifm_type = RTM_IFINFO2)).map IfMsgHdr.ifm_data

/-- The interface indices of the `RTM_IFINFO2` records, in order. -/
def genericIndices (rs : List IfMsgHdr) : List Nat :=
  (rs.filter fun r => decide (r.ifm_type = RTM_IFINFO2)).map IfMsgHdr.ifm_index

/-- The counters the secondary `sysctl` oracle returns for the `RTM_IFINFO2`
records, in order (defaulting arbitrarily where the oracle fails). -/
def extDatas (ifmib : Nat → Option IfData) (rs : List IfMsgHdr) : List IfData :=
  (rs.filter fun r => decide (r.ifm_type = RTM_IFINFO2)).map
    fun r => (ifmib r.ifm_index).getD default

theorem recordsLength_cons (r : IfMsgHdr) (rs : List IfMsgHdr) :
    recordsLength (r :: rs) = r.ifm_msglen + recordsLength rs := by
  simp [recordsLength]

theorem headerAtList_cons_zero (r : IfMsgHdr) (rs : List IfMsgHdr)
    (hr : 0 < r.ifm_msglen) : headerAtList (r :: rs) 0 = r := by
  simp [headerAtList, hr]

theorem headerAtList_cons_add (r : IfMsgHdr) (rs : List IfMsgHdr) (k : Nat) :
    headerAtList (r :: rs) (r.ifm_msglen + k) = headerAtList rs k := by
  rw [headerAtList, if_neg (by omega)]
  congr 1
  omega

/-- Scanning a buffer from a cursor at or past a shift `s` behaves exactly
like scanning the suffix buffer: the loop of main.c lines 62-107 only ever
reads the buffer at or after its cursor. -/
theorem scanFrom_shift (b1 b2 : Buffer) (ifmib : Nat → Option IfData) (u : Bool) (s : Nat)
    (hlen : b1.length = s + b2.length)
    (hhead : ∀ j, b1.headerAt (s + j) = b2.headerAt j) :
    ∀ fuel k m, scanFrom b1 ifmib u fuel (s + k) m = scanFrom b2 ifmib u fuel k m := by
  intro fuel
  induction fuel with
  | zero => intro k m; rfl
  | succ fuel ih =>
    intro k m
    simp only [scanFrom]
    by_cases hk : k < b2.length
    · rw [if_pos (show s + k < b1.length by omega), if_pos hk, hhead k]
      simp only [Nat.add_assoc, ih]
    · rw [if_neg (show ¬ s + k < b1.length by omega), if_neg hk]

theorem scanFrom_mkBuffer_cons (r : IfMsgHdr) (rs : List IfMsgHdr)
    (ifmib : Nat → Option IfData) (u : Bool) (fuel k : Nat) (m : NetworkMetrics) :
    scanFrom (mkBuffer (r :: rs)) ifmib u fuel (r.ifm_msglen + k) m
      = scanFrom (mkBuffer rs) ifmib u fuel k m := by
  refine scanFrom_shift _ _ ifmib u r.ifm_msglen ?_ ?_ fuel k m
  · exact recordsLength_cons r rs
  · intro j
    exact headerAtList_cons_add r rs j

/-- With `useIfmibData = false` the scan over a concatenation of records
with positive declared lengths succeeds, visits every record in order, sums
the embedded counters of the `RTM_IFINFO2` records, and performs no
secondary query. -/
theorem scanFrom_mkBuffer_embedded (ifmib : Nat → Option IfData) :
    ∀ (rs : List IfMsgHdr) (fuel : Nat) (m : NetworkMetrics),
    rs.length < fuel → (∀ r ∈ rs, 0 < r.ifm_msglen) →
    scanFrom (mkBuffer rs) ifmib false fuel 0 m
      = some ⟨.success (List.foldl addData m (genericDatas rs)), rs.map classify, []⟩ := by
  intro rs
  induction rs with
  | nil =>
    intro fuel m hfuel _
    match fuel, hfuel with
    | fuel + 1, _ =>
      simp [scanFrom, mkBuffer, recordsLength, genericDatas]
  | cons r rs ih =>
    intro fuel m hfuel hwf
    match fuel, hfuel with
    | fuel + 1, hfuel =>
      have hr : 0 < r.ifm_msglen := hwf r (List.mem_cons_self r rs)
      have hlen : 0 < (mkBuffer (r :: rs)).length := by
        have := recordsLength_cons r rs
        simp only [mkBuffer] at *
        omega
      simp only [scanFrom, if_pos hlen]
      have hhead : (mkBuffer (r :: rs)).headerAt 0 = r := headerAtList_cons_zero r rs hr
      rw [hhead]
      have hfuel2 : rs.length < fuel := by
        simp only [List.length_cons] at hfuel
        omega
      have hshift : ∀ m2 : NetworkMetrics,
          scanFrom (mkBuffer (r :: rs)) ifmib false fuel (0 + r.ifm_msglen) m2
            = scanFrom (mkBuffer rs) ifmib false fuel 0 m2 := by
        intro m2
        rw [show 0 + r.ifm_msglen = r.ifm_msglen + 0 by omega]
        exact scanFrom_mkBuffer_cons r rs ifmib false fuel 0 m2
      by_cases ht : r.ifm_type = RTM_IFINFO2
      · rw [if_pos ht]
        simp only [Bool.false_eq_true, if_false]
        rw [hshift, ih fuel (addData m r.ifm_data) hfuel2
          (fun x hx => hwf x (List.mem_cons_of_mem r hx))]
        simp [classify, genericDatas, ht]
      · rw [if_neg ht]
        rw [hshift, ih fuel m hfuel2 (fun x hx => hwf x (List.mem_cons_of_mem r hx))]
        simp [classify, genericDatas, ht]

/-- With `useIfmibData = true` and every secondary query succeeding, the
scan over a concatenation of records with positive declared lengths
succeeds, visits every record in order, queries the secondary source once
per `RTM_IFINFO2` record (keyed by that record's interface index, in buffer
order), and sums the queried counters — the embedded ones never enter. -/
theorem scanFrom_mkBuffer_extended (ifmib : Nat → Option IfData) :
    ∀ (rs : List IfMsgHdr) (fuel : Nat) (m : NetworkMetrics),
    rs.length < fuel → (∀ r ∈ rs, 0 < r.ifm_msglen) →
    (∀ r ∈ rs, r.ifm_type = RTM_IFINFO2 → (ifmib r.ifm_index).isSome) →
    scanFrom (mkBuffer rs) ifmib true fuel 0 m
      = some ⟨.success (List.foldl addData m (extDatas ifmib rs)), rs.map classify,
          genericIndices rs⟩ := by
  intro rs
  induction rs with
  | nil =>
    intro fuel m hfuel _ _
    match fuel, hfuel with
    | fuel + 1, _ =>
      simp [scanFrom, mkBuffer, recordsLength, extDatas, genericIndices]
  | cons r rs ih =>
    intro fuel m hfuel hwf hq
    match fuel, hfuel with
    | fuel + 1, hfuel =>
      have hr : 0 < r.ifm_msglen := hwf r (List.mem_cons_self r rs)
      have hlen : 0 < (mkBuffer (r :: rs)).length := by
        have := recordsLength_cons r rs
        simp only [mkBuffer] at *
        omega
      simp only [scanFrom, if_pos hlen]
      have hhead : (mkBuffer (r :: rs)).headerAt 0 = r := headerAtList_cons_zero r rs hr
      rw [hhead]
      have hfuel2 : rs.length < fuel := by
        simp only [List.length_cons] at hfuel
        omega
      have hshift : ∀ m2 : NetworkMetrics,
          scanFrom (mkBuffer (r :: rs)) ifmib true fuel (0 + r.ifm_msglen) m2
            = scanFrom (mkBuffer rs) ifmib true fuel 0 m2 := by
        intro m2
        rw [show 0 + r.ifm_msglen = r.ifm_msglen + 0 by omega]
        exact scanFrom_mkBuffer_cons r rs ifmib true fuel 0 m2
      have htail : ∀ x ∈ rs, 0 < x.ifm_msglen := fun x hx => hwf x (List.mem_cons_of_mem r hx)
      have hqtail : ∀ x ∈ rs, x.ifm_type = RTM_IFINFO2 → (ifmib x.ifm_index).isSome :=
        fun x hx => hq x (List.mem_cons_of_mem r hx)
      by_cases ht : r.ifm_type = RTM_IFINFO2
      · rw [if_pos ht, if_pos (by trivial)]
        split
        · next heq =>
            have hsome : (ifmib r.ifm_index).isSome := hq r (List.mem_cons_self r rs) ht
            rw [heq] at hsome
            simp at hsome
        · next mibdata heq =>
            rw [hshift, ih fuel (addData m mibdata) hfuel2 htail hqtail]
            simp [extDatas, genericIndices, classify, ht, heq]
      · rw [if_neg ht]
        rw [hshift, ih fuel m hfuel2 htail hqtail]
        have hext : extDatas ifmib (r :: rs) = extDatas ifmib rs := by
          simp [extDatas, ht]
        rw [hext]
        simp [classify, genericIndices, ht]

/-- With `useIfmibData = true`, if some `RTM_IFINFO2` record's secondary
query fails, the pass ends in the `exit(1)` path (main.c lines 84-87). -/
theorem scanFrom_mkBuffer_extended_fail (ifmib : Nat → Option IfData) :
    ∀ (rs : List IfMsgHdr) (fuel : Nat) (m : NetworkMetrics),
    rs.length < fuel → (∀ r ∈ rs, 0 < r.ifm_msglen) →
    (∃ r ∈ rs, r.ifm_type = RTM_IFINFO2 ∧ ifmib r.ifm_index = none) →
    ∃ recs qs, scanFrom (mkBuffer rs) ifmib true fuel 0 m
      = some ⟨.exitFailure, recs, qs⟩ := by
  intro rs
  induction rs with
  | nil =>
    intro fuel m _ _ hex
    obtain ⟨r, hr, _⟩ := hex
    exact absurd hr (List.not_mem_nil r)
  | cons r rs ih =>
    intro fuel m hfuel hwf hex
    match fuel, hfuel with
    | fuel + 1, hfuel =>
      have hr : 0 < r.ifm_msglen := hwf r (List.mem_cons_self r rs)
      have hlen : 0 < (mkBuffer (r :: rs)).length := by
        have := recordsLength_cons r rs
        simp only [mkBuffer] at *
        omega
      simp only [scanFrom, if_pos hlen]
      have hhead : (mkBuffer (r :: rs)).headerAt 0 = r := headerAtList_cons_zero r rs hr
      rw [hhead]
      have hfuel2 : rs.length < fuel := by
        simp only [List.length_cons] at hfuel
        omega
      have hshift : ∀ m2 : NetworkMetrics,
          scanFrom (mkBuffer (r :: rs)) ifmib true fuel (0 + r.ifm_msglen) m2
            = scanFrom (mkBuffer rs) ifmib true fuel 0 m2 := by
        intro m2
        rw [show 0 + r.ifm_msglen = r.ifm_msglen + 0 by omega]
        exact scanFrom_mkBuffer_cons r rs ifmib true fuel 0 m2
      have htail : ∀ x ∈ rs, 0 < x.ifm_msglen := fun x hx => hwf x (List.mem_cons_of_mem r hx)
      by_cases ht : r.ifm_type = RTM_IFINFO2
      · rw [if_pos ht, if_pos (by trivial)]
        split
        · next heq =>
            exact ⟨[.GenericInfo r.ifm_index r.ifm_data], [r.ifm_index], rfl⟩
        · next mibdata heq =>
            have hextail : ∃ x ∈ rs, x.ifm_type = RTM_IFINFO2 ∧ ifmib x.ifm_index = none := by
              obtain ⟨x, hx, hxt, hxn⟩ := hex
              rcases List.mem_cons.mp hx with hx1 | hx2
              · subst hx1; rw [heq] at hxn; exact absurd hxn (by simp)
              · exact ⟨x, hx2, hxt, hxn⟩
            obtain ⟨recs, qs, htl⟩ := ih fuel (addData m mibdata) hfuel2 htail hextail
            refine ⟨.GenericInfo r.ifm_index r.ifm_data :: recs, r.ifm_index :: qs, ?_⟩
            rw [hshift, htl]
            simp
      · rw [if_neg ht]
        have hextail : ∃ x ∈ rs, x.ifm_type = RTM_IFINFO2 ∧ ifmib x.ifm_index = none := by
          obtain ⟨x, hx, hxt, hxn⟩ := hex
          rcases List.mem_cons.mp hx with hx1 | hx2
          · subst hx1; exact absurd hxt ht
          · exact ⟨x, hx2, hxt, hxn⟩
        obtain ⟨recs, qs, htl⟩ := ih fuel m hfuel2 htail hextail
        refine ⟨.Other :: recs, qs, ?_⟩
        rw [hshift, htl]
        simp

/-- With `useIfmibData = false` the scan never consults the secondary
source: its outcome is the same for any two oracles. -/
theorem scanFrom_embedded_ifmib_irrelevant (buf : Buffer) (ifmib ifmib2 : Nat → Option IfData) :
    ∀ fuel next m, scanFrom buf ifmib false fuel next m = scanFrom buf ifmib2 false fuel next m := by
  intro fuel
  induction fuel with
  | zero => intro next m; rfl
  | succ fuel ih =>
    intro next m
    simp only [scanFrom, Bool.false_eq_true, if_false, ih]

theorem isSome_opt_map {A B : Type} (f : A → B) (o : Option A) :
    (Option.map f o).isSome = o.isSome := by
  cases o <;> rfl

/-- If every header reachable inside the buffer declares a positive length,
the scan finishes within `buf.length - next + 1` iterations (each step
advances the cursor by at least one byte). -/
theorem scanFrom_isSome_of_pos (buf : Buffer) (ifmib : Nat → Option IfData) (u : Bool)
    (hpos : ∀ off, off < buf.length → 0 < (buf.headerAt off).ifm_msglen) :
    ∀ fuel next m, buf.length - next < fuel → (scanFrom buf ifmib u fuel next m).isSome := by
  intro fuel
  induction fuel with
  | zero => intro next m h; omega
  | succ fuel ih =>
    intro next m h
    simp only [scanFrom]
    by_cases hn : next < buf.length
    · rw [if_pos hn]
      have hmsg : 0 < (buf.headerAt next).ifm_msglen := hpos next hn
      have hrec : buf.length - (next + (buf.headerAt next).ifm_msglen) < fuel := by omega
      by_cases ht : (buf.headerAt next).ifm_type = RTM_IFINFO2
      · rw [if_pos ht]
        cases u with
        | false =>
          simp only [Bool.false_eq_true, if_false, isSome_opt_map]
          exact ih _ _ hrec
        | true =>
          rw [if_pos (by trivial)]
          split
          · simp
          · simp only [isSome_opt_map]
            exact ih _ _ hrec
      · rw [if_neg ht]
        simp only [isSome_opt_map]
        exact ih _ _ hrec
    · rw [if_neg hn]
      simp

/-- If the record at the buffer base declares length zero, the scanning
loop never terminates (with `useIfmibData = false`): the cursor never
advances and no fuel suffices. -/
theorem scanFrom_zero_msglen_none (buf : Buffer) (ifmib : Nat → Option IfData)
    (h0 : 0 < buf.length) (hz : (buf.headerAt 0).ifm_msglen = 0) :
    ∀ fuel m, scanFrom buf ifmib false fuel 0 m = none := by
  intro fuel
  induction fuel with
  | zero => intro m; rfl
  | succ fuel ih =>
    intro m
    simp only [scanFrom, if_pos h0, hz, Nat.add_zero, Bool.false_eq_true, if_false]
    by_cases ht : (buf.headerAt 0).ifm_type = RTM_IFINFO2
    · rw [if_pos ht, ih]
      rfl
    · rw [if_neg ht, ih]
      rfl

theorem u64Mod_pos : 0 < u64Mod := by norm_num [u64Mod]

/-- Folding `addData` accumulates, for each of the four counters
independently, the sum of that counter over the list, modulo `2 ^ 64`. -/
theorem foldl_addData_eq_sum :
    ∀ (l : List IfData) (m : NetworkMetrics),
    m.totalInputBytes < u64Mod → m.totalOutputBytes < u64Mod →
    m.totalInputPackets < u64Mod → m.totalOutputPackets < u64Mod →
    (List.foldl addData m l)
      = ⟨(m.totalInputBytes + (l.map IfData.ifi_ibytes).sum) % u64Mod,
         (m.totalOutputBytes + (l.map IfData.ifi_obytes).sum) % u64Mod,
         (m.totalInputPackets + (l.map IfData.ifi_ipackets).sum) % u64Mod,
         (m.totalOutputPackets + (l.map IfData.ifi_opackets).sum) % u64Mod⟩ := by
  intro l
  induction l with
  | nil =>
    intro m h1 h2 h3 h4
    simp only [List.foldl_nil, List.map_nil, List.sum_nil, Nat.add_zero]
    cases m with
    | mk a b c d =>
      simp only [NetworkMetrics.mk.injEq]
      exact ⟨(Nat.mod_eq_of_lt h1).symm, (Nat.mod_eq_of_lt h2).symm,
        (Nat.mod_eq_of_lt h3).symm, (Nat.mod_eq_of_lt h4).symm⟩
  | cons d l ih =>
    intro m h1 h2 h3 h4
    have hlt : ∀ x : Nat, x % u64Mod < u64Mod := fun x => Nat.mod_lt x u64Mod_pos
    rw [List.foldl_cons, ih (addData m d) (hlt _) (hlt _) (hlt _) (hlt _)]
    simp only [addData, List.map_cons, List.sum_cons, NetworkMetrics.mk.injEq]
    refine ⟨?_, ?_, ?_, ?_⟩ <;>
      rw [Nat.mod_add_mod, Nat.add_assoc]

/-- For in-range operands with `b ≤ a`, the `uint64_t` subtraction is the
plain subtraction. -/
theorem wrapSub_eq_sub (a b : Nat) (hb : b ≤ a) (ha : a < u64Mod) : wrapSub a b = a - b := by
  unfold wrapSub
  rw [Nat.mod_eq_of_lt (lt_of_le_of_lt hb ha),
    show a + (u64Mod - b) = (a - b) + u64Mod by omega, Nat.add_mod_right]
  exact Nat.mod_eq_of_lt (by omega)

/-- For in-range operands the `uint64_t` subtraction is subtraction of the
true integer values modulo `2 ^ 64`. -/
theorem wrapSub_int (a b : Nat) (_ha : a < u64Mod) (hb : b < u64Mod) :
    (wrapSub a b : Int) = ((a : Int) - (b : Int)) % (u64Mod : Int) := by
  unfold wrapSub
  rw [Nat.mod_eq_of_lt hb]
  simp only [u64Mod] at *
  omega

/-- C1: the spec claims a record whose declared length is zero or overruns
the buffer is a fatal `MalformedRecordError`.  The code has no such check:
here a 10-byte buffer whose sole record declares length 100 (overrunning
the buffer by 90 bytes) is processed without any error — the pass completes
successfully, the malformed record's counters even being aggregated. -/
theorem claim_C1_counterexample :
    scanFrom ⟨10, fun _ => ⟨100, RTM_IFINFO2, 7, ⟨1, 2, 3, 4⟩⟩⟩ (fun _ => none) false 2 0
        zeroMetrics
      = some ⟨.success ⟨3, 4, 1, 2⟩, [.GenericInfo 7 ⟨1, 2, 3, 4⟩], []⟩ := by
  decide

/-- C1 (amended): the record scanner performs no validation of
`ifm_msglen`.  A record whose declared length would advance the cursor past
the end of the buffer is processed normally (its counters aggregated when
it is a `RTM_IFINFO2` record) and the scan then terminates successfully
with no error; a record whose declared length is zero makes the scanning
loop run forever.  No malformed-record error path exists. -/
theorem claim_C1 :
    (∀ (buf : Buffer) (ifmib : Nat → Option IfData) (m : NetworkMetrics),
      0 < buf.length → buf.length ≤ (buf.headerAt 0).ifm_msglen →
      (buf.headerAt 0).ifm_type = RTM_IFINFO2 →
      scanFrom buf ifmib false 2 0 m
        = some ⟨.success (addData m (buf.headerAt 0).ifm_data),
            [.GenericInfo (buf.headerAt 0).ifm_index (buf.headerAt 0).ifm_data], []⟩)
    ∧ (∀ (buf : Buffer) (ifmib : Nat → Option IfData) (m : NetworkMetrics),
      0 < buf.length → (buf.headerAt 0).ifm_msglen = 0 →
      ∀ fuel, scanFrom buf ifmib false fuel 0 m = none) := by
  constructor
  · intro buf ifmib m h0 hover htype
    simp only [scanFrom, if_pos h0, if_pos htype, Bool.false_eq_true, if_false]
    rw [if_neg (show ¬ 0 + (buf.headerAt 0).ifm_msglen < buf.length by omega)]
    rfl
  · intro buf ifmib m h0 hz fuel
    exact scanFrom_zero_msglen_none buf ifmib h0 hz fuel m

/-- C1 witness: the overrun branch at a concrete 5-byte buffer whose record
declares length 8, and the zero-length branch at a concrete buffer. -/
theorem claim_C1_witness :
    scanFrom ⟨5, fun _ => ⟨8, RTM_IFINFO2, 3, ⟨1, 1, 1, 1⟩⟩⟩ (fun _ => none) false 2 0 zeroMetrics
        = some ⟨.success ⟨1, 1, 1, 1⟩, [.GenericInfo 3 ⟨1, 1, 1, 1⟩], []⟩
      ∧ scanFrom ⟨6, fun _ => ⟨0, 0, 0, ⟨0, 0, 0, 0⟩⟩⟩ (fun _ => none) false 3 0 zeroMetrics
        = none :=
  ⟨claim_C1.1 _ _ _ (by decide) (by decide) (by decide),
   claim_C1.2 _ _ _ (by decide) (by decide) 3⟩

/-- C10: the scanning loop terminates whenever every header inside the
buffer declares a strictly positive length — `buf.length + 1` iterations
always suffice since each step advances the cursor by at least one byte.
The positivity precondition is essential: a buffer whose base record
declares length zero keeps the cursor at offset 0 and the loop never
terminates, whatever fuel it is given. -/
theorem claim_C10 :
    (∀ (buf : Buffer) (ifmib : Nat → Option IfData) (u : Bool) (m : NetworkMetrics),
      (∀ off, off < buf.length → 0 < (buf.headerAt off).ifm_msglen) →
      (scanFrom buf ifmib u (buf.length + 1) 0 m).isSome)
    ∧ (∀ (buf : Buffer) (ifmib : Nat → Option IfData) (m : NetworkMetrics),
      0 < buf.length → (buf.headerAt 0).ifm_msglen = 0 →
      ∀ fuel, scanFrom buf ifmib false fuel 0 m = none) := by
  constructor
  · intro buf ifmib u m hpos
    exact scanFrom_isSome_of_pos buf ifmib u hpos (buf.length + 1) 0 m (by omega)
  · intro buf ifmib m h0 hz fuel
    exact scanFrom_zero_msglen_none buf ifmib h0 hz fuel m

/-- C10 witness: a concrete 12-byte buffer of constant-length-4 records is
scanned to completion, and a concrete zero-length-record buffer is not. -/
theorem claim_C10_witness :
    (scanFrom ⟨12, fun _ => ⟨4, 0, 0, ⟨0, 0, 0, 0⟩⟩⟩ (fun _ => none) false 13 0
        zeroMetrics).isSome
      ∧ scanFrom ⟨12, fun _ => ⟨0, 0, 0, ⟨0, 0, 0, 0⟩⟩⟩ (fun _ => none) false 100 0 zeroMetrics
        = none :=
  ⟨claim_C10.1 _ _ _ _ (fun off _ => Nat.succ_pos 3),
   claim_C10.2 _ _ _ (by decide) (by decide) 100⟩

/-- C8: scanning a buffer built as the concatenation of `N` well-formed
records (positive declared lengths) visits exactly `N` records, in buffer
order, classifying each as `GenericInfo` exactly when its type tag is
`RTM_IFINFO2` and as `Other` otherwise, and the scan runs off the end of
the final record and ends successfully. -/
theorem claim_C8 (rs : List IfMsgHdr) (ifmib : Nat → Option IfData) (fuel : Nat)
    (hfuel : rs.length < fuel) (hwf : ∀ r ∈ rs, 0 < r.ifm_msglen) :
    ∃ m : NetworkMetrics,
      scanFrom (mkBuffer rs) ifmib false fuel 0 zeroMetrics
        = some ⟨.success m,
            rs.map fun r => if r.ifm_type = RTM_IFINFO2
              then InterfaceRecord.GenericInfo r.ifm_index r.ifm_data
              else InterfaceRecord.Other,
            []⟩
      ∧ (rs.map fun r => if r.ifm_type = RTM_IFINFO2
          then InterfaceRecord.GenericInfo r.ifm_index r.ifm_data
          else InterfaceRecord.Other).length = rs.length := by
  refine ⟨List.foldl addData zeroMetrics (genericDatas rs), ?_, List.length_map rs _⟩
  rw [scanFrom_mkBuffer_embedded ifmib rs fuel zeroMetrics hfuel hwf]
  rfl

/-- C8 witness: a concrete three-record buffer (`RTM_IFINFO2`, other,
`RTM_IFINFO2`) is visited as exactly those three records in order. -/
theorem claim_C8_witness :
    ∃ m : NetworkMetrics,
      scanFrom (mkBuffer [⟨16, RTM_IFINFO2, 1, ⟨1, 2, 3, 4⟩⟩, ⟨8, 5, 2, ⟨9, 9, 9, 9⟩⟩,
          ⟨20, RTM_IFINFO2, 6, ⟨10, 20, 30, 40⟩⟩]) (fun _ => none) false 4 0 zeroMetrics
        = some ⟨.success m,
            ([⟨16, RTM_IFINFO2, 1, ⟨1, 2, 3, 4⟩⟩, ⟨8, 5, 2, ⟨9, 9, 9, 9⟩⟩,
              ⟨20, RTM_IFINFO2, 6, ⟨10, 20, 30, 40⟩⟩] : List IfMsgHdr).map fun r =>
                if r.ifm_type = RTM_IFINFO2
                then InterfaceRecord.GenericInfo r.ifm_index r.ifm_data
                else InterfaceRecord.Other,
            []⟩
      ∧ (([⟨16, RTM_IFINFO2, 1, ⟨1, 2, 3, 4⟩⟩, ⟨8, 5, 2, ⟨9, 9, 9, 9⟩⟩,
            ⟨20, RTM_IFINFO2, 6, ⟨10, 20, 30, 40⟩⟩] : List IfMsgHdr).map (fun r =>
              if r.ifm_type = RTM_IFINFO2
              then InterfaceRecord.GenericInfo r.ifm_index r.ifm_data
              else InterfaceRecord.Other)).length = 3 :=
  claim_C8 _ _ 4 (by decide) (by decide)

/-- C9: the aggregated value is the independent modulo-`2 ^ 64` sum of each
of the four counters over exactly the `GenericInfo` records of the pass; a
permutation of the records leaves the aggregated metrics unchanged, and no
record is excluded from the sum. -/
theorem claim_C9 (rs rs2 : List IfMsgHdr) (ifmib : Nat → Option IfData) (fuel fuel2 : Nat)
    (hfuel : rs.length < fuel) (hfuel2 : rs2.length < fuel2)
    (hwf : ∀ r ∈ rs, 0 < r.ifm_msglen) (hperm : rs.Perm rs2) :
    ∃ recs recs2,
      scanFrom (mkBuffer rs) ifmib false fuel 0 zeroMetrics
        = some ⟨.success ⟨((genericDatas rs).map IfData.ifi_ibytes).sum % u64Mod,
            ((genericDatas rs).map IfData.ifi_obytes).sum % u64Mod,
            ((genericDatas rs).map IfData.ifi_ipackets).sum % u64Mod,
            ((genericDatas rs).map IfData.ifi_opackets).sum % u64Mod⟩, recs, []⟩
      ∧ scanFrom (mkBuffer rs2) ifmib false fuel2 0 zeroMetrics
        = some ⟨.success ⟨((genericDatas rs).map IfData.ifi_ibytes).sum % u64Mod,
            ((genericDatas rs).map IfData.ifi_obytes).sum % u64Mod,
            ((genericDatas rs).map IfData.ifi_ipackets).sum % u64Mod,
            ((genericDatas rs).map IfData.ifi_opackets).sum % u64Mod⟩, recs2, []⟩ := by
  have hwf2 : ∀ r ∈ rs2, 0 < r.ifm_msglen := fun r hr => hwf r (hperm.mem_iff.mpr hr)
  have hdperm : (genericDatas rs).Perm (genericDatas rs2) :=
    (hperm.filter _).map _
  have hzlt : ∀ i : Fin 4, (0 : Nat) < u64Mod := fun _ => u64Mod_pos
  refine ⟨rs.map classify, rs2.map classify, ?_, ?_⟩
  · rw [scanFrom_mkBuffer_embedded ifmib rs fuel zeroMetrics hfuel hwf,
      foldl_addData_eq_sum (genericDatas rs) zeroMetrics u64Mod_pos u64Mod_pos u64Mod_pos
        u64Mod_pos]
    simp [zeroMetrics]
  · rw [scanFrom_mkBuffer_embedded ifmib rs2 fuel2 zeroMetrics hfuel2 hwf2,
      foldl_addData_eq_sum (genericDatas rs2) zeroMetrics u64Mod_pos u64Mod_pos u64Mod_pos
        u64Mod_pos]
    have h1 : ((genericDatas rs2).map IfData.ifi_ibytes).sum
        = ((genericDatas rs).map IfData.ifi_ibytes).sum := ((hdperm.map _).sum_eq).symm
    have h2 : ((genericDatas rs2).map IfData.ifi_obytes).sum
        = ((genericDatas rs).map IfData.ifi_obytes).sum := ((hdperm.map _).sum_eq).symm
    have h3 : ((genericDatas rs2).map IfData.ifi_ipackets).sum
        = ((genericDatas rs).map IfData.ifi_ipackets).sum := ((hdperm.map _).sum_eq).symm
    have h4 : ((genericDatas rs2).map IfData.ifi_opackets).sum
        = ((genericDatas rs).map IfData.ifi_opackets).sum := ((hdperm.map _).sum_eq).symm
    simp [zeroMetrics, h1, h2, h3, h4]

/-- C9 witness: two concrete two-record buffers that are permutations of one
another aggregate to the same metrics. -/
theorem claim_C9_witness :
    ∃ recs recs2,
      scanFrom (mkBuffer [⟨16, RTM_IFINFO2, 1, ⟨1, 2, 3, 4⟩⟩, ⟨8, RTM_IFINFO2, 2, ⟨5, 6, 7, 8⟩⟩])
          (fun _ => none) false 3 0 zeroMetrics
        = some ⟨.success ⟨10, 12, 6, 8⟩, recs, []⟩
      ∧ scanFrom (mkBuffer [⟨8, RTM_IFINFO2, 2, ⟨5, 6, 7, 8⟩⟩, ⟨16, RTM_IFINFO2, 1, ⟨1, 2, 3, 4⟩⟩])
          (fun _ => none) false 3 0 zeroMetrics
        = some ⟨.success ⟨10, 12, 6, 8⟩, recs2, []⟩ :=
  claim_C9 _ _ _ 3 3 (by decide) (by decide) (by decide) (List.Perm.swap _ _ _)

/-- C2: each of the four reported deltas equals `current - previous`
computed modulo `2 ^ 64` (wrapping unsigned subtraction); in particular
`previous = 10, current = 15` yields delta `5`, and `previous = 2 ^ 64 - 5,
current = 3` yields wrapping delta `8`. -/
theorem claim_C2 :
    (∀ lastMetrics currentMetrics : NetworkMetrics,
      lastMetrics.totalInputBytes < u64Mod → currentMetrics.totalInputBytes < u64Mod →
      lastMetrics.totalOutputBytes < u64Mod → currentMetrics.totalOutputBytes < u64Mod →
      lastMetrics.totalInputPackets < u64Mod → currentMetrics.totalInputPackets < u64Mod →
      lastMetrics.totalOutputPackets < u64Mod → currentMetrics.totalOutputPackets < u64Mod →
      ((iterationReport lastMetrics currentMetrics).inputBytesDelta : Int)
          = ((currentMetrics.totalInputBytes : Int) - (lastMetrics.totalInputBytes : Int))
            % (u64Mod : Int)
        ∧ ((iterationReport lastMetrics currentMetrics).outputBytesDelta : Int)
          = ((currentMetrics.totalOutputBytes : Int) - (lastMetrics.totalOutputBytes : Int))
            % (u64Mod : Int)
        ∧ ((iterationReport lastMetrics currentMetrics).inputPacketsDelta : Int)
          = ((currentMetrics.totalInputPackets : Int) - (lastMetrics.totalInputPackets : Int))
            % (u64Mod : Int)
        ∧ ((iterationReport lastMetrics currentMetrics).outputPacketsDelta : Int)
          = ((currentMetrics.totalOutputPackets : Int) - (lastMetrics.totalOutputPackets : Int))
            % (u64Mod : Int))
    ∧ (iterationReport ⟨10, 10, 10, 10⟩ ⟨15, 15, 15, 15⟩).inputBytesDelta = 5
    ∧ (iterationReport ⟨10, 10, 10, 10⟩ ⟨15, 15, 15, 15⟩).outputBytesDelta = 5
    ∧ (iterationReport ⟨10, 10, 10, 10⟩ ⟨15, 15, 15, 15⟩).inputPacketsDelta = 5
    ∧ (iterationReport ⟨10, 10, 10, 10⟩ ⟨15, 15, 15, 15⟩).outputPacketsDelta = 5
    ∧ (iterationReport ⟨u64Mod - 5, u64Mod - 5, u64Mod - 5, u64Mod - 5⟩
        ⟨3, 3, 3, 3⟩).inputBytesDelta = 8
    ∧ (iterationReport ⟨u64Mod - 5, u64Mod - 5, u64Mod - 5, u64Mod - 5⟩
        ⟨3, 3, 3, 3⟩).outputBytesDelta = 8
    ∧ (iterationReport ⟨u64Mod - 5, u64Mod - 5, u64Mod - 5, u64Mod - 5⟩
        ⟨3, 3, 3, 3⟩).inputPacketsDelta = 8
    ∧ (iterationReport ⟨u64Mod - 5, u64Mod - 5, u64Mod - 5, u64Mod - 5⟩
        ⟨3, 3, 3, 3⟩).outputPacketsDelta = 8 := by
  refine ⟨?_, by decide, by decide, by decide, by decide, by decide, by decide, by decide,
    by decide⟩
  intro l c h1 h2 h3 h4 h5 h6 h7 h8
  simp only [iterationReport]
  exact ⟨wrapSub_int _ _ h2 h1, wrapSub_int _ _ h4 h3, wrapSub_int _ _ h6 h5,
    wrapSub_int _ _ h8 h7⟩

/-- C2 witness: the general wrapping-delta law instantiated at a concrete
pair of samples. -/
theorem claim_C2_witness :
    ((iterationReport ⟨100, 200, 300, 400⟩ ⟨150, 250, 350, 450⟩).inputBytesDelta : Int)
        = ((150 : Int) - (100 : Int)) % (u64Mod : Int)
      ∧ ((iterationReport ⟨100, 200, 300, 400⟩ ⟨150, 250, 350, 450⟩).outputBytesDelta : Int)
        = ((250 : Int) - (200 : Int)) % (u64Mod : Int)
      ∧ ((iterationReport ⟨100, 200, 300, 400⟩ ⟨150, 250, 350, 450⟩).inputPacketsDelta : Int)
        = ((350 : Int) - (300 : Int)) % (u64Mod : Int)
      ∧ ((iterationReport ⟨100, 200, 300, 400⟩ ⟨150, 250, 350, 450⟩).outputPacketsDelta : Int)
        = ((450 : Int) - (400 : Int)) % (u64Mod : Int) :=
  claim_C2.1 ⟨100, 200, 300, 400⟩ ⟨150, 250, 350, 450⟩ (by decide) (by decide) (by decide)
    (by decide) (by decide) (by decide) (by decide) (by decide)

/-- C3: the overflow warning for a direction is emitted exactly when that
direction's current total byte counter is strictly below the previous one
(true unsigned comparison), independently for input and output; it names
the before value, the after value and the true difference
`previous - current`; and a successful pass always produces its report and
replaces the previous sample with the current one, warnings or not. -/
theorem claim_C3 :
    (∀ lastMetrics currentMetrics : NetworkMetrics,
      lastMetrics.totalInputBytes < u64Mod → currentMetrics.totalInputBytes < u64Mod →
      lastMetrics.totalOutputBytes < u64Mod → currentMetrics.totalOutputBytes < u64Mod →
      ((iterationReport lastMetrics currentMetrics).inputOverflow
          = if currentMetrics.totalInputBytes < lastMetrics.totalInputBytes
            then some (lastMetrics.totalInputBytes, currentMetrics.totalInputBytes,
              lastMetrics.totalInputBytes - currentMetrics.totalInputBytes)
            else none)
        ∧ ((iterationReport lastMetrics currentMetrics).outputOverflow
          = if currentMetrics.totalOutputBytes < lastMetrics.totalOutputBytes
            then some (lastMetrics.totalOutputBytes, currentMetrics.totalOutputBytes,
              lastMetrics.totalOutputBytes - currentMetrics.totalOutputBytes)
            else none))
    ∧ (∀ (fetch : Option Buffer) (ifmib : Nat → Option IfData) (u : Bool) (fuel : Nat)
        (lastMetrics currentMetrics : NetworkMetrics) (o : ScanOut),
      GetNetworkMetrics fetch ifmib u fuel = some o → o.result = .success currentMetrics →
      loopStep fetch ifmib u fuel lastMetrics
        = some (.report (iterationReport lastMetrics currentMetrics) currentMetrics)) := by
  constructor
  · intro l c h1 h2 h3 h4
    constructor
    · simp only [iterationReport]
      by_cases h : c.totalInputBytes < l.totalInputBytes
      · rw [if_pos h, if_pos h, wrapSub_eq_sub _ _ (Nat.le_of_lt h) h1]
      · rw [if_neg h, if_neg h]
    · simp only [iterationReport]
      by_cases h : c.totalOutputBytes < l.totalOutputBytes
      · rw [if_pos h, if_pos h, wrapSub_eq_sub _ _ (Nat.le_of_lt h) h3]
      · rw [if_neg h, if_neg h]
  · intro fetch ifmib u fuel l c o h1 h2
    simp [loopStep, h1, h2]

/-- C3 witness: a concrete anomalous pair (input bytes dropped from 100 to
40, output bytes grew) produces exactly the input warning `(100, 40, 60)`
and no output warning, and a concrete successful pass still replaces the
previous sample. -/
theorem claim_C3_witness :
    (iterationReport ⟨100, 50, 0, 0⟩ ⟨40, 60, 0, 0⟩).inputOverflow = some (100, 40, 60)
      ∧ (iterationReport ⟨100, 50, 0, 0⟩ ⟨40, 60, 0, 0⟩).outputOverflow = none
      ∧ loopStep (some (mkBuffer [])) (fun _ => none) false 1 ⟨100, 50, 0, 0⟩
        = some (.report (iterationReport ⟨100, 50, 0, 0⟩ zeroMetrics) zeroMetrics) := by
  refine ⟨?_, ?_, ?_⟩
  · exact ((claim_C3.1 ⟨100, 50, 0, 0⟩ ⟨40, 60, 0, 0⟩ (by decide) (by decide) (by decide)
      (by decide)).1).trans (by decide)
  · exact ((claim_C3.1 ⟨100, 50, 0, 0⟩ ⟨40, 60, 0, 0⟩ (by decide) (by decide) (by decide)
      (by decide)).2).trans (by decide)
  · exact claim_C3.2 (some (mkBuffer [])) (fun _ => none) false 1 ⟨100, 50, 0, 0⟩ zeroMetrics
      ⟨.success zeroMetrics, [], []⟩ (by decide) rfl

/-- C4: with `useIfmibData = false` the counters come solely from the
records' embedded fields — the pass is independent of the secondary oracle
and its query trace is empty; with `useIfmibData = true` the secondary
query runs exactly once per `RTM_IFINFO2` record, keyed by that record's
interface index, and the aggregate is built from the queried counters
alone, fully replacing the embedded fields. -/
theorem claim_C4 :
    (∀ (buf : Buffer) (ifmib ifmib2 : Nat → Option IfData) (fuel next : Nat)
        (m : NetworkMetrics),
      scanFrom buf ifmib false fuel next m = scanFrom buf ifmib2 false fuel next m)
    ∧ (∀ (rs : List IfMsgHdr) (ifmib : Nat → Option IfData) (fuel : Nat),
      rs.length < fuel → (∀ r ∈ rs, 0 < r.ifm_msglen) →
      scanFrom (mkBuffer rs) ifmib false fuel 0 zeroMetrics
        = some ⟨.success (List.foldl addData zeroMetrics (genericDatas rs)),
            rs.map classify, []⟩)
    ∧ (∀ (rs : List IfMsgHdr) (ifmib : Nat → Option IfData) (fuel : Nat),
      rs.length < fuel → (∀ r ∈ rs, 0 < r.ifm_msglen) →
      (∀ r ∈ rs, r.ifm_type = RTM_IFINFO2 → (ifmib r.ifm_index).isSome) →
      scanFrom (mkBuffer rs) ifmib true fuel 0 zeroMetrics
        = some ⟨.success (List.foldl addData zeroMetrics (extDatas ifmib rs)),
            rs.map classify, genericIndices rs⟩) :=
  ⟨fun buf i1 i2 fuel next m => scanFrom_embedded_ifmib_irrelevant buf i1 i2 fuel next m,
   fun rs ifmib fuel h1 h2 => scanFrom_mkBuffer_embedded ifmib rs fuel zeroMetrics h1 h2,
   fun rs ifmib fuel h1 h2 h3 => scanFrom_mkBuffer_extended ifmib rs fuel zeroMetrics h1 h2 h3⟩

/-- C4 witness: on a concrete two-record buffer, the embedded pass queries
nothing and sums the embedded counters, while the extended pass queries
interface 1 exactly once and reports the oracle's counters instead. -/
theorem claim_C4_witness :
    scanFrom (mkBuffer [⟨16, RTM_IFINFO2, 1, ⟨1, 2, 3, 4⟩⟩, ⟨8, 0, 2, ⟨9, 9, 9, 9⟩⟩])
        (fun _ => some ⟨100, 200, 300, 400⟩) false 3 0 zeroMetrics
      = some ⟨.success (List.foldl addData zeroMetrics
          (genericDatas [⟨16, RTM_IFINFO2, 1, ⟨1, 2, 3, 4⟩⟩, ⟨8, 0, 2, ⟨9, 9, 9, 9⟩⟩])),
          ([⟨16, RTM_IFINFO2, 1, ⟨1, 2, 3, 4⟩⟩, ⟨8, 0, 2, ⟨9, 9, 9, 9⟩⟩] : List IfMsgHdr).map
            classify, []⟩
    ∧ scanFrom (mkBuffer [⟨16, RTM_IFINFO2, 1, ⟨1, 2, 3, 4⟩⟩, ⟨8, 0, 2, ⟨9, 9, 9, 9⟩⟩])
        (fun _ => some ⟨100, 200, 300, 400⟩) true 3 0 zeroMetrics
      = some ⟨.success (List.foldl addData zeroMetrics
          (extDatas (fun _ => some ⟨100, 200, 300, 400⟩)
            [⟨16, RTM_IFINFO2, 1, ⟨1, 2, 3, 4⟩⟩, ⟨8, 0, 2, ⟨9, 9, 9, 9⟩⟩])),
          ([⟨16, RTM_IFINFO2, 1, ⟨1, 2, 3, 4⟩⟩, ⟨8, 0, 2, ⟨9, 9, 9, 9⟩⟩] : List IfMsgHdr).map
            classify,
          genericIndices [⟨16, RTM_IFINFO2, 1, ⟨1, 2, 3, 4⟩⟩, ⟨8, 0, 2, ⟨9, 9, 9, 9⟩⟩]⟩ :=
  ⟨claim_C4.2.1 _ _ 3 (by decide) (by decide),
   claim_C4.2.2 _ _ 3 (by decide) (by decide) (fun r _ _ => rfl)⟩

/-- C5: a failed primary fetch, or a failed secondary per-interface query
anywhere in the pass, terminates the process with exit status 1; the failed
pass yields no report and leaves the previous sample untouched. -/
theorem claim_C5 :
    (∀ (ifmib : Nat → Option IfData) (u : Bool) (fuel : Nat) (lastMetrics : NetworkMetrics),
      loopStep none ifmib u fuel lastMetrics = some (.exited 1))
    ∧ (∀ (rs : List IfMsgHdr) (ifmib : Nat → Option IfData) (fuel : Nat)
        (lastMetrics : NetworkMetrics),
      rs.length < fuel → (∀ r ∈ rs, 0 < r.ifm_msglen) →
      (∃ r ∈ rs, r.ifm_type = RTM_IFINFO2 ∧ ifmib r.ifm_index = none) →
      loopStep (some (mkBuffer rs)) ifmib true fuel lastMetrics = some (.exited 1)) := by
  constructor
  · intro ifmib u fuel l
    rfl
  · intro rs ifmib fuel l hfuel hwf hex
    obtain ⟨recs, qs, h⟩ :=
      scanFrom_mkBuffer_extended_fail ifmib rs fuel zeroMetrics hfuel hwf hex
    simp [loopStep, GetNetworkMetrics, h]

/-- C5 witness: a failed primary fetch and, separately, a concrete buffer
whose only record's secondary query fails, both exit with status 1. -/
theorem claim_C5_witness :
    loopStep none (fun _ => none) false 5 zeroMetrics = some (.exited 1)
      ∧ loopStep (some (mkBuffer [⟨16, RTM_IFINFO2, 1, ⟨1, 2, 3, 4⟩⟩])) (fun _ => none) true 2
          zeroMetrics = some (.exited 1) :=
  ⟨claim_C5.1 (fun _ => none) false 5 zeroMetrics,
   claim_C5.2 _ _ 2 zeroMetrics (by decide) (by decide)
     ⟨⟨16, RTM_IFINFO2, 1, ⟨1, 2, 3, 4⟩⟩, by decide, rfl, rfl⟩⟩

/-- C6: the reported byte totals and deltas are the exact raw aggregated
values — the report carries the current sample's byte counters and their
wrapping deltas unchanged, with no rounding to 1 KiB or any other
granularity: a total of 1500 bytes (not a multiple of 1024) is reported as
exactly 1500. -/
theorem claim_C6 :
    (∀ lastMetrics currentMetrics : NetworkMetrics,
      (iterationReport lastMetrics currentMetrics).inputBytesTotal
          = currentMetrics.totalInputBytes
        ∧ (iterationReport lastMetrics currentMetrics).outputBytesTotal
          = currentMetrics.totalOutputBytes
        ∧ (iterationReport lastMetrics currentMetrics).inputBytesDelta
          = wrapSub currentMetrics.totalInputBytes lastMetrics.totalInputBytes
        ∧ (iterationReport lastMetrics currentMetrics).outputBytesDelta
          = wrapSub currentMetrics.totalOutputBytes lastMetrics.totalOutputBytes)
    ∧ (iterationReport zeroMetrics ⟨1500, 2500, 10, 20⟩).inputBytesTotal = 1500
    ∧ (iterationReport zeroMetrics ⟨1500, 2500, 10, 20⟩).inputBytesDelta = 1500
    ∧ ¬ (1024 ∣ (iterationReport zeroMetrics ⟨1500, 2500, 10, 20⟩).inputBytesTotal) :=
  ⟨fun l c => ⟨rfl, rfl, rfl, rfl⟩, by decide, by decide, by decide⟩

/-- C7: when every field of the current sample is at least the previous one
and exceeds it by less than `2 ^ 63`, no overflow warning is emitted for
either direction and every reported delta is the plain subtraction. -/
theorem claim_C7 (lastMetrics currentMetrics : NetworkMetrics)
    (hc1 : currentMetrics.totalInputBytes < u64Mod)
    (hc2 : currentMetrics.totalOutputBytes < u64Mod)
    (hc3 : currentMetrics.totalInputPackets < u64Mod)
    (hc4 : currentMetrics.totalOutputPackets < u64Mod)
    (hg1 : lastMetrics.totalInputBytes ≤ currentMetrics.totalInputBytes)
    (hg2 : lastMetrics.totalOutputBytes ≤ currentMetrics.totalOutputBytes)
    (hg3 : lastMetrics.totalInputPackets ≤ currentMetrics.totalInputPackets)
    (hg4 : lastMetrics.totalOutputPackets ≤ currentMetrics.totalOutputPackets)
    (_hd1 : currentMetrics.totalInputBytes - lastMetrics.totalInputBytes < 2 ^ 63)
    (_hd2 : currentMetrics.totalOutputBytes - lastMetrics.totalOutputBytes < 2 ^ 63)
    (_hd3 : currentMetrics.totalInputPackets - lastMetrics.totalInputPackets < 2 ^ 63)
    (_hd4 : currentMetrics.totalOutputPackets - lastMetrics.totalOutputPackets < 2 ^ 63) :
    (iterationReport lastMetrics currentMetrics).inputOverflow = none
      ∧ (iterationReport lastMetrics currentMetrics).outputOverflow = none
      ∧ (iterationReport lastMetrics currentMetrics).inputBytesDelta
        = currentMetrics.totalInputBytes - lastMetrics.totalInputBytes
      ∧ (iterationReport lastMetrics currentMetrics).outputBytesDelta
        = currentMetrics.totalOutputBytes - lastMetrics.totalOutputBytes
      ∧ (iterationReport lastMetrics currentMetrics).inputPacketsDelta
        = currentMetrics.totalInputPackets - lastMetrics.totalInputPackets
      ∧ (iterationReport lastMetrics currentMetrics).outputPacketsDelta
        = currentMetrics.totalOutputPackets - lastMetrics.totalOutputPackets := by
  refine ⟨?_, ?_, ?_, ?_, ?_, ?_⟩
  · simp only [iterationReport]
    rw [if_neg (by omega)]
  · simp only [iterationReport]
    rw [if_neg (by omega)]
  · simp only [iterationReport]
    exact wrapSub_eq_sub _ _ hg1 hc1
  · simp only [iterationReport]
    exact wrapSub_eq_sub _ _ hg2 hc2
  · simp only [iterationReport]
    exact wrapSub_eq_sub _ _ hg3 hc3
  · simp only [iterationReport]
    exact wrapSub_eq_sub _ _ hg4 hc4

/-- C7 witness: ordinary growth at a concrete pair of samples. -/
theorem claim_C7_witness :
    (iterationReport ⟨10, 20, 30, 40⟩ ⟨15, 25, 35, 45⟩).inputOverflow = none
      ∧ (iterationReport ⟨10, 20, 30, 40⟩ ⟨15, 25, 35, 45⟩).outputOverflow = none
      ∧ (iterationReport ⟨10, 20, 30, 40⟩ ⟨15, 25, 35, 45⟩).inputBytesDelta = 15 - 10
      ∧ (iterationReport ⟨10, 20, 30, 40⟩ ⟨15, 25, 35, 45⟩).outputBytesDelta = 25 - 20
      ∧ (iterationReport ⟨10, 20, 30, 40⟩ ⟨15, 25, 35, 45⟩).inputPacketsDelta = 35 - 30
      ∧ (iterationReport ⟨10, 20, 30, 40⟩ ⟨15, 25, 35, 45⟩).outputPacketsDelta = 45 - 40 :=
  claim_C7 ⟨10, 20, 30, 40⟩ ⟨15, 25, 35, 45⟩ (by norm_num [u64Mod]) (by norm_num [u64Mod])
    (by norm_num [u64Mod]) (by norm_num [u64Mod]) (by norm_num) (by norm_num) (by norm_num)
    (by norm_num) (by norm_num) (by norm_num) (by norm_num) (by norm_num)

end MacosNetworkMetrics
